import Mathlib

/-!
Shallow embedding of `src/expliot_finder/scraper/core/sites_finder.py`
(the `GoogleSitesFinder` class) together with the query-string
percent-encoding it relies on (`urllib.parse.quote_plus`) and the matching
decoder (`urllib.parse.unquote_plus`), plus theorems checking the
natural-language specification of the repository against this embedding.

Python strings are embedded as Lean `String` (both are sequences of Unicode
scalar values); `bytes` values are embedded as `List Nat` with every element
below 256.
-/

namespace ExploitFinder

/-- UTF-8 encoding of a single Unicode scalar value, as a list of byte
values.  This is the standard 1-to-4 byte encoding used by Python's
`str.encode("utf-8")` (Lean `Char` excludes surrogates, exactly the values
on which CPython's strict UTF-8 encoder would fail). -/
def utf8EncodeChar (c : Char) : List Nat :=
  if c.toNat < 0x80 then
    [c.toNat]
  else if c.toNat < 0x800 then
    [0xC0 + c.toNat / 64, 0x80 + c.toNat % 64]
  else if c.toNat < 0x10000 then
    [0xE0 + c.toNat / 4096, 0x80 + (c.toNat / 64) % 64, 0x80 + c.toNat % 64]
  else
    [0xF0 + c.toNat / 262144, 0x80 + (c.toNat / 4096) % 64,
      0x80 + (c.toNat / 64) % 64, 0x80 + c.toNat % 64]

/-- UTF-8 encoding of a character sequence: the concatenation of the
encodings of its characters (Python `str.encode("utf-8")`). -/
def utf8Bytes (cs : List Char) : List Nat :=
  cs.flatMap utf8EncodeChar

/-- The bytes CPython's `urllib.parse` never escapes: `_ALWAYS_SAFE`, i.e.
ASCII letters, digits and `_ . - ~`. -/
def isSafeByte (b : Nat) : Bool :=
  (48 ≤ b && b ≤ 57) || (65 ≤ b && b ≤ 90) || (97 ≤ b && b ≤ 122) ||
    b == 45 || b == 46 || b == 95 || b == 126

/-- Upper-case hexadecimal digit for `n < 16`, as a byte value (CPython
formats escapes with upper-case hex). -/
def hexUpper (n : Nat) : Nat :=
  if n < 10 then 48 + n else 55 + n

/-- How `urllib.parse.quote_plus` renders one byte of the UTF-8 encoding:
safe bytes stand for themselves, the space byte becomes `+` (byte 43),
every other byte becomes `%XX` with upper-case hex. -/
def quoteByte (b : Nat) : List Nat :=
  if isSafeByte b then [b]
  else if b == 32 then [43]
  else [37, hexUpper (b / 16), hexUpper (b % 16)]

/-- Embedding of Python `urllib.parse.quote_plus` (default arguments, as
called by the source): UTF-8-encode the string, keep `_ALWAYS_SAFE` bytes,
turn spaces into `+`, percent-escape everything else with upper-case hex.
The resulting byte list is pure ASCII and is read back as a string. -/
def quote_plus (s : String) : String :=
  String.mk (((utf8Bytes s.data).flatMap quoteByte).map Char.ofNat)

/-- The fixed base URL from the `search_query` setter
(`base_query: str = "https://www.google.co.uk/search?q="`). -/
def base_query : String := "https://www.google.co.uk/search?q="

/-- State of a `GoogleSitesFinder` instance: by `__slots__` the only field
is `_search_query`. -/
structure GoogleSitesFinder where
  _search_query : String
deriving DecidableEq

/-- The `search_query` property setter: stores
`base_query + parse.quote_plus(service_version)`. -/
def search_query_set (service_version : String) : GoogleSitesFinder :=
  ⟨base_query ++ quote_plus service_version⟩

/-- `GoogleSitesFinder.__init__`: runs `self.search_query = service_version`,
i.e. the setter, immediately at construction. -/
def GoogleSitesFinder.init (service_version : String) : GoogleSitesFinder :=
  search_query_set service_version

/-- The `search_query` property getter: returns
`self._search_query + " exploit"`. -/
def GoogleSitesFinder.search_query (g : GoogleSitesFinder) : String :=
  g._search_query ++ " exploit"

/-- Embedding of Python `str.startswith`: a literal prefix test on the
character sequence. -/
def pyStartswith (url : String) (site : String) : Bool :=
  site.data.isPrefixOf url.data

/-- `GoogleSitesFinder.filter_extracted_urls`: the list comprehension
`[url for url in urls if url.startswith(site)]`. -/
def filter_extracted_urls (site : String) (urls : List String) : List String :=
  urls.filter (fun url => pyStartswith url site)

/-- The exceptions `requests` can raise from `session.get` (the network
layer is external to the repository, so only the shape of the outcome is
modelled): connection errors, DNS resolution failures, timeouts. -/
inductive NetError where
  | connectionError
  | dnsFailure
  | timeout
deriving DecidableEq

/-- The part of a `requests_html.HTMLResponse` the source touches: the
HTTP status code, and `response.html.absolute_links` — the absolute-URL
hyperlinks of the rendered document, listed in extraction order
(`__extract_urls` converts the set to a list). -/
structure HTMLResponse where
  status_code : Nat
  absolute_links : List String
deriving DecidableEq

/-- A transport: what `AsyncHTMLSession().get` does for a given URL.
`requests` raises an exception on network failure but returns the response
object for any HTTP status, 2xx or not. -/
def Transport := String → Except NetError HTMLResponse

/-- `GoogleSitesFinder.__send_search_query`: awaits
`AsyncHTMLSession().get(search_query)` and returns its result; it installs
no handler, so a transport exception propagates unchanged. -/
def send_search_query (net : Transport) (search_query : String) :
    Except NetError HTMLResponse :=
  net search_query

/-- `GoogleSitesFinder.__extract_urls`:
`list(response.html.absolute_links)`. -/
def extract_urls (response : HTMLResponse) : List String :=
  response.absolute_links

/-- `GoogleSitesFinder.search_for_pages`: awaits the GET on the read value
of `search_query`, then filters the extracted URLs.  No status-code check
and no exception handler appear anywhere on this path. -/
def GoogleSitesFinder.search_for_pages (net : Transport)
    (g : GoogleSitesFinder) (site : String) : Except NetError (List String) :=
  match send_search_query net g.search_query with
  | .error e => .error e
  | .ok response => .ok (filter_extracted_urls site (extract_urls response))

/-- The public operations available on a constructed `GoogleSitesFinder`
instance: reading the `search_query` property, assigning to it (the public
property setter), calling `filter_extracted_urls`, calling
`search_for_pages`, and `repr`. -/
inductive PublicOp where
  | getQuery
  | setQuery (service_version : String)
  | filterUrls (site : String) (urls : List String)
  | searchForPages (net : Transport) (site : String)
  | reprOp

/-- The instance state after performing a public operation: only the
property setter rebinds `_search_query`; every other operation reads the
state without modifying it. -/
def applyOp (g : GoogleSitesFinder) : PublicOp → GoogleSitesFinder
  | .getQuery => g
  | .setQuery v => search_query_set v
  | .filterUrls _ _ => g
  | .searchForPages _ _ => g
  | .reprOp => g

/-! ### The matching query-string decoder (`urllib.parse.unquote_plus`) -/

/-- Is the byte an ASCII hexadecimal digit?  CPython's unquoting accepts
both cases. -/
def isHexByte (b : Nat) : Bool :=
  (48 ≤ b && b ≤ 57) || (65 ≤ b && b ≤ 70) || (97 ≤ b && b ≤ 102)

/-- Value of an ASCII hexadecimal digit byte. -/
def hexVal (b : Nat) : Nat :=
  if b ≤ 57 then b - 48 else if b ≤ 70 then b - 55 else b - 87

/-- The `%XX`/`+` layer of `urllib.parse.unquote_plus`, on the byte
rendering of the input: a valid `%XX` escape yields the byte `XX`, an
invalid `%` stands for itself (CPython leaves malformed escapes
untouched), `+` yields the space byte, and every other byte stands for
itself. -/
def percentPlusDecode : List Nat → List Nat
  | [] => []
  | 37 :: a :: b' :: rest =>
    if isHexByte a && isHexByte b' then
      (hexVal a * 16 + hexVal b') :: percentPlusDecode rest
    else
      37 :: percentPlusDecode (a :: b' :: rest)
  | 43 :: rest => 32 :: percentPlusDecode rest
  | 37 :: rest => 37 :: percentPlusDecode rest
  | b :: rest => b :: percentPlusDecode rest

/-- Is the byte a UTF-8 continuation byte (`0b10xxxxxx`)? -/
def isCont (b : Nat) : Bool :=
  128 ≤ b && b < 192

/-- One-pass strict UTF-8 decoder.  State: `pending` is the partial scalar
value accumulated so far, `needed` the number of continuation bytes still
expected, `minv` the least scalar value the current multi-byte sequence is
allowed to produce (rejecting overlong encodings), `acc` the decoded
characters in reverse order.  Truncated sequences, stray continuation
bytes, overlong encodings, surrogates and out-of-range values are all
rejected. -/
def utf8DecodeAux : Nat → Nat → Nat → List Char → List Nat → Option (List Char)
  | _, needed, _, acc, [] =>
    if needed = 0 then some acc.reverse else none
  | pending, needed, minv, acc, b :: rest =>
    if needed = 0 then
      if b < 128 then utf8DecodeAux 0 0 0 (Char.ofNat b :: acc) rest
      else if b < 192 then none
      else if b < 224 then utf8DecodeAux (b - 192) 1 128 acc rest
      else if b < 240 then utf8DecodeAux (b - 224) 2 2048 acc rest
      else if b < 248 then utf8DecodeAux (b - 240) 3 65536 acc rest
      else none
    else
      if isCont b then
        if needed = 1 then
          if minv ≤ pending * 64 + (b - 128) ∧
              Char.isValidCharNat (pending * 64 + (b - 128)) then
            utf8DecodeAux 0 0 0
              (Char.ofNat (pending * 64 + (b - 128)) :: acc) rest
          else none
        else
          utf8DecodeAux (pending * 64 + (b - 128)) (needed - 1) minv acc rest
      else none

/-- Standard strict UTF-8 decoding of a byte list.  Where CPython's
`errors="replace"` decoding would substitute U+FFFD, this model returns
`none`; on byte lists produced by the encoder the two agree. -/
def utf8Decode (bs : List Nat) : Option (List Char) :=
  utf8DecodeAux 0 0 0 [] bs

/-- Embedding of Python `urllib.parse.unquote_plus` on the byte rendering
of its input: undo the `+`/`%XX` layer, then UTF-8-decode. -/
def unquote_plus (s : String) : Option String :=
  (utf8Decode (percentPlusDecode (utf8Bytes s.data))).map String.mk

/-- The query portion of a stored search URL: the characters after the
fixed base URL (the spec's "the part after
`https://www.google.co.uk/search?q=`"). -/
def queryPortion (stored : String) : String :=
  String.mk (stored.data.drop base_query.data.length)

/-! ### Helper lemmas -/

/-- Every Unicode scalar value is below `0x110000`. -/
theorem char_toNat_lt (c : Char) : c.toNat < 0x110000 := by
  rcases c.valid with h | ⟨h1, h2⟩
  · exact Nat.lt_trans h (by norm_num)
  · exact h2

/-- A character's scalar value is a valid scalar value (as a `Nat`). -/
theorem char_isValidCharNat (c : Char) : Char.isValidCharNat c.toNat := c.valid

theorem utf8EncodeChar_lt256 (c : Char) : ∀ b ∈ utf8EncodeChar c, b < 256 := by
  have h := char_toNat_lt c
  intro b hb
  unfold utf8EncodeChar at hb
  split_ifs at hb <;>
    simp only [List.mem_cons, List.not_mem_nil, or_false] at hb <;>
    rcases hb with rfl | hb <;> omega

theorem utf8Bytes_lt256 (cs : List Char) : ∀ b ∈ utf8Bytes cs, b < 256 := by
  intro b hb
  rw [utf8Bytes, List.mem_flatMap] at hb
  obtain ⟨c, _, hc⟩ := hb
  exact utf8EncodeChar_lt256 c b hc

/-- The Python prefix test agrees with `List.IsPrefix` on the character
sequences. -/
theorem pyStartswith_iff (url site : String) :
    pyStartswith url site = true ↔ site.data <+: url.data := by
  rw [pyStartswith, List.isPrefixOf_iff_prefix]

/-! ### Theorems for the claims -/

/-- **C1**: constructing a `GoogleSitesFinder` with version string `V`
stores `"https://www.google.co.uk/search?q=" + quote_plus(V)`; every read
of `search_query` returns the stored string with the literal unencoded
suffix `" exploit"` appended; two reads of the same instance agree; and for
`V = "OpenSSH 7.2"` the stored query is
`"https://www.google.co.uk/search?q=OpenSSH+7.2"` and the read value is
`"https://www.google.co.uk/search?q=OpenSSH+7.2 exploit"`. -/
theorem search_query_construction (V : String) :
    (GoogleSitesFinder.init V)._search_query = base_query ++ quote_plus V ∧
    (GoogleSitesFinder.init V).search_query =
      (GoogleSitesFinder.init V)._search_query ++ " exploit" ∧
    (GoogleSitesFinder.init V).search_query =
      (GoogleSitesFinder.init V).search_query ∧
    (GoogleSitesFinder.init "OpenSSH 7.2")._search_query =
      "https://www.google.co.uk/search?q=OpenSSH+7.2" ∧
    (GoogleSitesFinder.init "OpenSSH 7.2").search_query =
      "https://www.google.co.uk/search?q=OpenSSH+7.2 exploit" :=
  ⟨rfl, rfl, rfl, by decide, by decide⟩

/-- **C2**: `filter_extracted_urls site urls` is a subsequence of `urls`
(hence keeps the relative order and modifies no element), and it keeps
each string exactly as often as `urls` contains it when `site` is a prefix
of it — and never otherwise (no deduplication, no sorting). -/
theorem filter_extracted_urls_exact (site : String) (urls : List String) :
    (filter_extracted_urls site urls).Sublist urls ∧
    ∀ u : String, (filter_extracted_urls site urls).count u =
      if site.data <+: u.data then urls.count u else 0 := by
  refine ⟨List.filter_sublist urls, fun u => ?_⟩
  by_cases h : site.data <+: u.data
  · rw [if_pos h]
    exact List.count_filter ((pyStartswith_iff u site).mpr h)
  · rw [if_neg h, List.count_eq_zero]
    intro hmem
    rw [filter_extracted_urls, List.mem_filter] at hmem
    exact h ((pyStartswith_iff u site).mp hmem.2)

/-- **C6**: the domain filter is anchored at the start of the full URL
string: on the three-element example list only the genuinely
`exploit-db.com`-prefixed URL survives (a URL merely *containing* the
prefix is dropped), while a host that merely extends the allowlisted
domain is kept. -/
theorem filter_anchored_prefix_example :
    filter_extracted_urls "https://www.exploit-db.com"
      ["https://www.exploit-db.com/exploits/1",
       "https://www.cvedetails.com/x",
       "https://evil.example/https://www.exploit-db.com"] =
      ["https://www.exploit-db.com/exploits/1"] ∧
    filter_extracted_urls "https://www.exploit-db.com"
      ["https://www.exploit-db.com.evil.example/x"] =
      ["https://www.exploit-db.com.evil.example/x"] := by
  constructor <;> decide

/-- **C9**: filtering with the empty prefix is the identity on the URL
list: every string has the empty string as a prefix. -/
theorem filter_empty_prefix_identity (urls : List String) :
    filter_extracted_urls "" urls = urls := by
  rw [filter_extracted_urls]
  refine List.filter_eq_self.mpr fun u _ => ?_
  rw [pyStartswith_iff]
  exact List.nil_prefix

/-- **C10**: `filter_extracted_urls` is idempotent: filtering an already
filtered list with the same prefix changes nothing. -/
theorem filter_extracted_urls_idempotent (site : String) (urls : List String) :
    filter_extracted_urls site (filter_extracted_urls site urls) =
      filter_extracted_urls site urls := by
  simp [filter_extracted_urls, List.filter_filter]

/-- **C8**: construction is total for every text input — the stored query
is always the base URL followed by the (total) encoding of the version
string, whose UTF-8 byte rendering is well formed — and the empty version
string yields the degenerate stored query equal to the bare base URL. -/
theorem construction_total (V : String) :
    GoogleSitesFinder.init V = ⟨base_query ++ quote_plus V⟩ ∧
    (∀ b ∈ utf8Bytes V.data, b < 256) ∧
    (GoogleSitesFinder.init "")._search_query =
      "https://www.google.co.uk/search?q=" :=
  ⟨rfl, utf8Bytes_lt256 V.data, by decide⟩

/-- A transport that answers every request with HTTP 500 and an error page
that still contains one absolute link. -/
def mock500Transport : Transport := fun _ =>
  .ok ⟨500, ["https://www.exploit-db.com/exploits/1"]⟩

/-- A transport whose GET times out. -/
def mockTimeoutTransport : Transport := fun _ =>
  .error .timeout

/-- A transport that succeeds with HTTP 200 and a document containing no
absolute links. -/
def mockEmptyTransport : Transport := fun _ =>
  .ok ⟨200, []⟩

/-- **C3**, counterexample: with a transport answering HTTP 500 (a non-2xx
status), `search_for_pages` does not raise — it filters the error page's
links and returns a list result, so the non-success-status case is not
surfaced as an error. -/
theorem search_for_pages_non2xx_counterexample :
    mock500Transport (GoogleSitesFinder.init "OpenSSH 7.2").search_query =
      .ok ⟨500, ["https://www.exploit-db.com/exploits/1"]⟩ ∧
    (GoogleSitesFinder.init "OpenSSH 7.2").search_for_pages mock500Transport
      "https://www.exploit-db.com" =
      .ok ["https://www.exploit-db.com/exploits/1"] :=
  ⟨rfl, rfl⟩

/-- **C3**, amended: a network failure (an exception from the GET)
propagates unchanged out of `search_for_pages` and is catchable by the
caller; but a response with a non-2xx status is not detected — the
response is processed like any other and a list is returned. -/
theorem search_for_pages_error_propagation (net : Transport)
    (g : GoogleSitesFinder) (site : String) :
    (∀ e, net g.search_query = .error e →
      g.search_for_pages net site = .error e) ∧
    (∀ r, net g.search_query = .ok r →
      g.search_for_pages net site =
        .ok (filter_extracted_urls site (extract_urls r))) := by
  constructor
  · intro e he
    rw [GoogleSitesFinder.search_for_pages, send_search_query, he]
  · intro r hr
    rw [GoogleSitesFinder.search_for_pages, send_search_query, hr]

/-- Witness for the amended C3 theorem at concrete transports. -/
theorem search_for_pages_error_propagation_witness :
    (GoogleSitesFinder.init "OpenSSH 7.2").search_for_pages
      mockTimeoutTransport "https://www.exploit-db.com" = .error .timeout :=
  (search_for_pages_error_propagation mockTimeoutTransport
    (GoogleSitesFinder.init "OpenSSH 7.2") "https://www.exploit-db.com").1
    .timeout rfl

/-- **C5**, counterexample: the `search_query` property setter is a public
operation, and invoking it after construction replaces the stored query,
so the stored value is not immutable. -/
theorem setter_mutates_counterexample :
    applyOp (GoogleSitesFinder.init "OpenSSH 7.2")
        (.setQuery "nginx 1.18") ≠
      GoogleSitesFinder.init "OpenSSH 7.2" := by
  decide

/-- **C5**, amended: the stored query is computed at construction, and no
public operation other than the `search_query` property setter changes it;
the setter, when invoked, rebinds the stored query. -/
theorem stored_query_stable_unless_setter (g : GoogleSitesFinder)
    (op : PublicOp) (h : ∀ v, op ≠ PublicOp.setQuery v) :
    (applyOp g op)._search_query = g._search_query := by
  cases op with
  | setQuery v => exact absurd rfl (h v)
  | getQuery => rfl
  | filterUrls site urls => rfl
  | searchForPages net site => rfl
  | reprOp => rfl

/-- Witness for the amended C5 theorem at a concrete non-setter
operation. -/
theorem stored_query_stable_unless_setter_witness :
    (applyOp (GoogleSitesFinder.init "OpenSSH 7.2")
        PublicOp.getQuery)._search_query =
      (GoogleSitesFinder.init "OpenSSH 7.2")._search_query :=
  stored_query_stable_unless_setter (GoogleSitesFinder.init "OpenSSH 7.2")
    PublicOp.getQuery (fun _ h => nomatch h)

/-- **C7**: whenever the GET completes with a response, `search_for_pages`
returns an actual list (never null — the `Except` result is `.ok` with a
genuine, possibly empty list); in particular zero extracted links yield
`.ok []`, not an error. -/
theorem search_for_pages_returns_list (net : Transport)
    (g : GoogleSitesFinder) (site : String) (r : HTMLResponse)
    (h : net g.search_query = .ok r) :
    g.search_for_pages net site =
      .ok (filter_extracted_urls site (extract_urls r)) ∧
    (extract_urls r = [] → g.search_for_pages net site = .ok []) := by
  have hok : g.search_for_pages net site =
      .ok (filter_extracted_urls site (extract_urls r)) := by
    rw [GoogleSitesFinder.search_for_pages, send_search_query, h]
  refine ⟨hok, fun hnil => ?_⟩
  rw [hok, hnil]
  rfl

/-- Witness for the C7 theorem at a concrete empty-document transport. -/
theorem search_for_pages_returns_list_witness :
    (GoogleSitesFinder.init "OpenSSH 7.2").search_for_pages
      mockEmptyTransport "https://www.exploit-db.com" = .ok [] :=
  (search_for_pages_returns_list mockEmptyTransport
    (GoogleSitesFinder.init "OpenSSH 7.2") "https://www.exploit-db.com"
    ⟨200, []⟩ rfl).2 rfl

/-! ### Round-trip lemmas for the percent layer -/

theorem toNat_ofNat_ascii {b : Nat} (h : b < 128) : (Char.ofNat b).toNat = b := by
  have hv : b.isValidChar := Or.inl (by omega)
  rw [Char.ofNat, dif_pos hv]
  rfl

theorem utf8EncodeChar_ofNat_ascii {b : Nat} (h : b < 128) :
    utf8EncodeChar (Char.ofNat b) = [b] := by
  unfold utf8EncodeChar
  rw [toNat_ofNat_ascii h, if_pos h]

theorem utf8Bytes_map_ofNat (bs : List Nat) (h : ∀ b ∈ bs, b < 128) :
    utf8Bytes (bs.map Char.ofNat) = bs := by
  induction bs with
  | nil => rfl
  | cons b bs ih =>
    have hb := h b (List.mem_cons_self b bs)
    rw [List.map_cons, utf8Bytes, List.flatMap_cons,
      utf8EncodeChar_ofNat_ascii hb, ← utf8Bytes,
      ih (fun x hx => h x (List.mem_cons_of_mem b hx))]
    rfl

theorem hexUpper_lt (n : Nat) (h : n < 16) : hexUpper n < 128 := by
  unfold hexUpper
  split_ifs <;> omega

theorem quoteByte_lt128 (b : Nat) (hb : b < 256) :
    ∀ x ∈ quoteByte b, x < 128 := by
  intro x hx
  unfold quoteByte at hx
  split_ifs at hx with h1 h2
  · simp only [List.mem_singleton] at hx
    subst hx
    unfold isSafeByte at h1
    simp only [Bool.or_eq_true, Bool.and_eq_true, decide_eq_true_eq,
      beq_iff_eq] at h1
    omega
  · simp only [List.mem_singleton] at hx
    omega
  · simp only [List.mem_cons, List.not_mem_nil, or_false] at hx
    rcases hx with rfl | rfl | rfl
    · omega
    · exact hexUpper_lt _ (by omega)
    · exact hexUpper_lt _ (by omega)

theorem isHexByte_hexUpper (n : Nat) (h : n < 16) :
    isHexByte (hexUpper n) = true := by
  unfold isHexByte hexUpper
  split_ifs <;>
    simp only [Bool.or_eq_true, Bool.and_eq_true, decide_eq_true_eq] <;>
    omega

theorem hexVal_hexUpper (n : Nat) (h : n < 16) : hexVal (hexUpper n) = n := by
  unfold hexVal hexUpper
  split_ifs <;> omega

theorem percentPlusDecode_cons_other (b : Nat) (rest : List Nat)
    (h37 : b ≠ 37) (h43 : b ≠ 43) :
    percentPlusDecode (b :: rest) = b :: percentPlusDecode rest := by
  rw [percentPlusDecode.eq_def]
  split <;> simp_all

theorem percentPlusDecode_escape (a b' : Nat) (rest : List Nat)
    (ha : isHexByte a = true) (hb : isHexByte b' = true) :
    percentPlusDecode (37 :: a :: b' :: rest) =
      (hexVal a * 16 + hexVal b') :: percentPlusDecode rest := by
  have hdef : percentPlusDecode (37 :: a :: b' :: rest) =
      if isHexByte a && isHexByte b' then
        (hexVal a * 16 + hexVal b') :: percentPlusDecode rest
      else
        37 :: percentPlusDecode (a :: b' :: rest) := rfl
  rw [hdef, if_pos (by simp [ha, hb])]

theorem percentPlusDecode_plus (rest : List Nat) :
    percentPlusDecode (43 :: rest) = 32 :: percentPlusDecode rest := rfl

/-- Decoding the quoted form of one byte recovers that byte. -/
theorem percentPlusDecode_quoteByte (b : Nat) (hb : b < 256)
    (rest : List Nat) :
    percentPlusDecode (quoteByte b ++ rest) = b :: percentPlusDecode rest := by
  unfold quoteByte
  split_ifs with h1 h2
  · have hfacts : b ≠ 37 ∧ b ≠ 43 := by
      unfold isSafeByte at h1
      simp only [Bool.or_eq_true, Bool.and_eq_true, decide_eq_true_eq,
        beq_iff_eq] at h1
      omega
    simpa using percentPlusDecode_cons_other b rest hfacts.1 hfacts.2
  · have hb32 : b = 32 := by simpa using h2
    subst hb32
    exact percentPlusDecode_plus rest
  · rw [List.cons_append, List.cons_append, List.cons_append,
      percentPlusDecode_escape _ _ _ (isHexByte_hexUpper _ (by omega))
        (isHexByte_hexUpper _ (by omega)),
      hexVal_hexUpper _ (by omega), hexVal_hexUpper _ (by omega)]
    congr 1
    omega

/-- Decoding the quoted form of a byte list recovers the bytes. -/
theorem percentPlusDecode_quote (bs : List Nat) (h : ∀ b ∈ bs, b < 256) :
    percentPlusDecode (bs.flatMap quoteByte) = bs := by
  induction bs with
  | nil => rfl
  | cons b bs ih =>
    rw [List.flatMap_cons,
      percentPlusDecode_quoteByte b (h b (List.mem_cons_self b bs)),
      ih (fun x hx => h x (List.mem_cons_of_mem b hx))]

/-! ### Round-trip lemmas for the UTF-8 layer -/

/-- The defining equation of `utf8DecodeAux` on a non-empty byte list. -/
theorem utf8DecodeAux_cons (pending needed minv : Nat) (acc : List Char)
    (b : Nat) (rest : List Nat) :
    utf8DecodeAux pending needed minv acc (b :: rest) =
      if needed = 0 then
        if b < 128 then utf8DecodeAux 0 0 0 (Char.ofNat b :: acc) rest
        else if b < 192 then none
        else if b < 224 then utf8DecodeAux (b - 192) 1 128 acc rest
        else if b < 240 then utf8DecodeAux (b - 224) 2 2048 acc rest
        else if b < 248 then utf8DecodeAux (b - 240) 3 65536 acc rest
        else none
      else
        if isCont b then
          if needed = 1 then
            if minv ≤ pending * 64 + (b - 128) ∧
                Char.isValidCharNat (pending * 64 + (b - 128)) then
              utf8DecodeAux 0 0 0
                (Char.ofNat (pending * 64 + (b - 128)) :: acc) rest
            else none
          else
            utf8DecodeAux (pending * 64 + (b - 128)) (needed - 1) minv acc rest
        else none := rfl

/-- Processing the UTF-8 encoding of one character from the initial
decoder state pushes exactly that character onto the accumulator. -/
theorem utf8DecodeAux_encodeChar (c : Char) (acc : List Char)
    (rest : List Nat) :
    utf8DecodeAux 0 0 0 acc (utf8EncodeChar c ++ rest) =
      utf8DecodeAux 0 0 0 (c :: acc) rest := by
  have hlt := char_toNat_lt c
  have hval := char_isValidCharNat c
  unfold utf8EncodeChar
  split_ifs with h1 h2 h3
  · rw [List.cons_append, List.nil_append, utf8DecodeAux_cons,
      if_pos rfl, if_pos h1, Char.ofNat_toNat]
  · rw [List.cons_append, List.cons_append, List.nil_append,
      utf8DecodeAux_cons, if_pos rfl, if_neg (by omega), if_neg (by omega),
      if_pos (by omega), utf8DecodeAux_cons, if_neg (by omega),
      if_pos (show isCont (128 + c.toNat % 64) = true by
        simp only [isCont, Bool.and_eq_true, decide_eq_true_eq]; omega),
      if_pos rfl,
      show (192 + c.toNat / 64 - 192) * 64 + (128 + c.toNat % 64 - 128) =
        c.toNat from by omega,
      if_pos ⟨by omega, hval⟩, Char.ofNat_toNat]
  · rw [List.cons_append, List.cons_append, List.cons_append,
      List.nil_append, utf8DecodeAux_cons, if_pos rfl, if_neg (by omega),
      if_neg (by omega), if_neg (by omega), if_pos (by omega),
      utf8DecodeAux_cons, if_neg (by omega),
      if_pos (show isCont (128 + c.toNat / 64 % 64) = true by
        simp only [isCont, Bool.and_eq_true, decide_eq_true_eq]; omega),
      if_neg (by omega),
      utf8DecodeAux_cons, if_neg (by omega),
      if_pos (show isCont (128 + c.toNat % 64) = true by
        simp only [isCont, Bool.and_eq_true, decide_eq_true_eq]; omega),
      if_pos (by omega),
      show ((224 + c.toNat / 4096 - 224) * 64 +
          (128 + c.toNat / 64 % 64 - 128)) * 64 +
          (128 + c.toNat % 64 - 128) = c.toNat from by omega,
      if_pos ⟨by omega, hval⟩, Char.ofNat_toNat]
  · rw [List.cons_append, List.cons_append, List.cons_append,
      List.cons_append, List.nil_append, utf8DecodeAux_cons, if_pos rfl,
      if_neg (by omega), if_neg (by omega), if_neg (by omega),
      if_neg (by omega), if_pos (by omega),
      utf8DecodeAux_cons, if_neg (by omega),
      if_pos (show isCont (128 + c.toNat / 4096 % 64) = true by
        simp only [isCont, Bool.and_eq_true, decide_eq_true_eq]; omega),
      if_neg (by omega),
      utf8DecodeAux_cons, if_neg (by omega),
      if_pos (show isCont (128 + c.toNat / 64 % 64) = true by
        simp only [isCont, Bool.and_eq_true, decide_eq_true_eq]; omega),
      if_neg (by omega),
      utf8DecodeAux_cons, if_neg (by omega),
      if_pos (show isCont (128 + c.toNat % 64) = true by
        simp only [isCont, Bool.and_eq_true, decide_eq_true_eq]; omega),
      if_pos (by omega),
      show (((240 + c.toNat / 262144 - 240) * 64 +
          (128 + c.toNat / 4096 % 64 - 128)) * 64 +
          (128 + c.toNat / 64 % 64 - 128)) * 64 +
          (128 + c.toNat % 64 - 128) = c.toNat from by omega,
      if_pos ⟨by omega, hval⟩, Char.ofNat_toNat]

/-- Running the decoder over the UTF-8 encoding of a character list
appends the characters to the accumulated output. -/
theorem utf8DecodeAux_bytes (cs : List Char) :
    ∀ acc : List Char, utf8DecodeAux 0 0 0 acc (utf8Bytes cs) =
      some (acc.reverse ++ cs) := by
  induction cs with
  | nil =>
    intro acc
    simp [utf8Bytes, utf8DecodeAux]
  | cons c cs ih =>
    intro acc
    rw [utf8Bytes, List.flatMap_cons, ← utf8Bytes,
      utf8DecodeAux_encodeChar, ih]
    simp

/-- Decoding the UTF-8 encoding of a character list recovers the list. -/
theorem utf8Decode_utf8Bytes (cs : List Char) :
    utf8Decode (utf8Bytes cs) = some cs := by
  rw [utf8Decode, utf8DecodeAux_bytes]
  rfl

/-- The encoder/decoder pair round-trips on every string. -/
theorem unquote_plus_quote_plus (V : String) :
    unquote_plus (quote_plus V) = some V := by
  have hlt128 : ∀ x ∈ (utf8Bytes V.data).flatMap quoteByte, x < 128 := by
    intro x hx
    rw [List.mem_flatMap] at hx
    obtain ⟨b, hb, hxq⟩ := hx
    exact quoteByte_lt128 b (utf8Bytes_lt256 V.data b hb) x hxq
  rw [unquote_plus, quote_plus]
  rw [show (String.mk (((utf8Bytes V.data).flatMap quoteByte).map
      Char.ofNat)).data =
    ((utf8Bytes V.data).flatMap quoteByte).map Char.ofNat from rfl]
  rw [utf8Bytes_map_ofNat _ hlt128,
    percentPlusDecode_quote _ (utf8Bytes_lt256 V.data),
    utf8Decode_utf8Bytes]
  rfl

/-- **C4**: the percent-encoding used at construction round-trips: the
query portion of the stored URL (the part after the base URL) is exactly
`quote_plus V`, and decoding it with the matching query-string decoder
(`unquote_plus`) recovers `V` exactly, for every string `V` — so no
reserved character is double-encoded. -/
theorem quote_plus_roundtrip (V : String) :
    queryPortion (GoogleSitesFinder.init V)._search_query = quote_plus V ∧
    unquote_plus (queryPortion (GoogleSitesFinder.init V)._search_query) =
      some V := by
  have hq : queryPortion (GoogleSitesFinder.init V)._search_query =
      quote_plus V := by
    rw [show (GoogleSitesFinder.init V)._search_query =
      base_query ++ quote_plus V from rfl]
    rw [queryPortion, String.data_append, List.drop_left]
  exact ⟨hq, hq ▸ unquote_plus_quote_plus V⟩

end ExploitFinder

namespace ExploitFinder

example : quote_plus "OpenSSH 7.2" = "OpenSSH+7.2" := by decide
example : quote_plus "" = "" := by rfl
example : quote_plus "a&b=c+d" = "a%26b%3Dc%2Bd" := by decide
example : unquote_plus "a%26b%3Dc%2Bd" = some "a&b=c+d" := by decide
example : unquote_plus "OpenSSH+7.2" = some "OpenSSH 7.2" := by decide
example : unquote_plus (quote_plus "łódź ☃") = some "łódź ☃" := by decide

end ExploitFinder
